import Mathlib

/-!
Verification of the data-loading and cleaning utilities of the
Visualisasi-NYC-YT repository (src/utils/data_loader.py), as a shallow
embedding in Lean 4.

The embedding covers the two components of the spec:
the Remote Fetcher (function load_data_from_gdrive) and the Normalizer
(function prepare_taxi_data).  Values, columns and dataframes model the
pandas objects involved; library calls (re.search, pd.to_numeric,
pd.to_datetime, gdown.download, requests.get, the pandas file readers) are
modelled by explicit Lean functions or environment oracles, documented at
each definition.
-/

namespace NycTaxi

/-- A scalar cell value of a pandas dataframe.  Floating-point and integer
payloads are both abstracted as integers (no claim depends on float
arithmetic, only on coercion behaviour); timestamps carry an abstract
instant and an optional timezone offset, since pandas distinguishes
tz-aware from tz-naive timestamps; vNull models NaN/NaT/None. -/
inductive Value where
  | vNum (n : Int)
  | vStr (s : String)
  | vTimestamp (t : Int) (tz : Option Int)
  | vNull
deriving DecidableEq, Repr

/-- The pandas dtype of a column, as coarse as the source's dispatch needs:
the code only tests is_float_dtype, is_integer_dtype, and produces datetime
columns; everything else behaves as object dtype. -/
inductive DType where
  | dFloat
  | dInt
  | dDatetime
  | dObject
deriving DecidableEq, Repr

/-- One named column of a dataframe. -/
structure Column where
  name : String
  dtype : DType
  values : List Value
deriving DecidableEq, Repr

/-- A pandas DataFrame: an ordered sequence of named columns. -/
abbrev DataFrame := List Column

/-- A row of a dataframe: one value per column, in column order. -/
abbrev Row := List Value

/-- Models pd.to_numeric(value, errors=coerce) on one cell: numbers pass
through, parseable strings become numbers, everything unparseable becomes
null (never raises).  String-to-number parsing is abstracted to integer
literals; a timestamp coerces to its underlying integer instant. -/
def pdToNumericValue : Value → Value
  | .vNum n => .vNum n
  | .vStr s =>
    match s.toInt? with
    | some n => .vNum n
    | none => .vNull
  | .vTimestamp t _ => .vNum t
  | .vNull => .vNull

/-- Models pd.to_datetime(value, errors=coerce) on one cell: timestamps and
nulls pass through, numbers are read as epoch offsets (tz-naive), parseable
strings become tz-naive timestamps, unparseable strings become null. -/
def pdToDatetimeValue (parse : String → Option Int) : Value → Value
  | .vNum n => .vTimestamp n none
  | .vStr s =>
    match parse s with
    | some t => .vTimestamp t none
    | none => .vNull
  | .vTimestamp t tz => .vTimestamp t tz
  | .vNull => .vNull

/-- Models the timestamp-string parser inside pd.to_datetime, abstracted to
the shape YYYY-MM-DD (optionally followed by more text): the first ten
characters must be four digits, a dash, two digits, a dash, two digits.
The resulting instant packs the digits into one integer. -/
def parseTimestamp? (s : String) : Option Int :=
  match s.toList with
  | y1 :: y2 :: y3 :: y4 :: '-' :: m1 :: m2 :: '-' :: d1 :: d2 :: _ =>
    if y1.isDigit && y2.isDigit && y3.isDigit && y4.isDigit &&
       m1.isDigit && m2.isDigit && d1.isDigit && d2.isDigit then
      let y := ((y1.toNat - 48) * 10 + (y2.toNat - 48)) * 100
        + (y3.toNat - 48) * 10 + (y4.toNat - 48)
      let m := (m1.toNat - 48) * 10 + (m2.toNat - 48)
      let d := (d1.toNat - 48) * 10 + (d2.toNat - 48)
      some (((y * 100 + m) * 100 + d : Nat) : Int)
    else none
  | _ => none

/-- Whether a cell is a tz-aware timestamp. -/
def isAware : Value → Bool
  | .vTimestamp _ (some _) => true
  | _ => false

/-- Whether a cell is a tz-naive timestamp. -/
def isNaive : Value → Bool
  | .vTimestamp _ none => true
  | _ => false

/-- A column mixes tz-aware and tz-naive timestamps.  pd.to_datetime raises
on such data even under errors=coerce (coerce only covers per-value parse
failures, not array construction); this is the failure mode the source
wraps in try/except. -/
def mixedTz (vs : List Value) : Bool :=
  vs.any isAware && vs.any isNaive

/-- Models pd.to_datetime(series, errors=coerce) on a whole column: raises
(returns none) on mixed tz-aware/tz-naive data, otherwise coerces each cell,
sending unparseable cells to null. -/
def pdToDatetime (vs : List Value) : Option (List Value) :=
  if mixedTz vs then none else some (vs.map (pdToDatetimeValue parseTimestamp?))

/-- Does the character list hay contain needle as a contiguous sublist
(models the Python substring test keyword in name). -/
def containsSub (needle : List Char) : List Char → Bool
  | [] => needle.isEmpty
  | c :: t => needle.isPrefixOf (c :: t) || containsSub needle t

/-- The datetime-column name heuristic of prepare_taxi_data: the lowercased
column name contains one of the substrings pickup, dropoff, date, time. -/
def nameMatches (name : String) : Bool :=
  let low := name.toList.map Char.toLower
  containsSub "pickup".toList low || containsSub "dropoff".toList low ||
    containsSub "date".toList low || containsSub "time".toList low

/-- The first loop of prepare_taxi_data: float-dtype columns are re-coerced
with pd.to_numeric(errors=coerce); integer-dtype columns likewise (the
downcast option changes integer width only, which the model collapses);
other dtypes are untouched. -/
def numericStage (c : Column) : Column :=
  match c.dtype with
  | .dFloat => { c with values := c.values.map pdToNumericValue }
  | .dInt => { c with values := c.values.map pdToNumericValue }
  | _ => c

/-- The second loop of prepare_taxi_data: for a column whose name matches
the heuristic, try pd.to_datetime(errors=coerce); on success the column
becomes datetime-typed with the coerced values, and a raised exception is
swallowed (try/except pass), leaving the column unchanged. -/
def datetimeStage (c : Column) : Column :=
  if nameMatches c.name then
    match pdToDatetime c.values with
    | some vs => { c with dtype := .dDatetime, values := vs }
    | none => c
  else c

/-- The per-column effect of the two coercion loops of prepare_taxi_data
(the loops act columnwise and independently, so their composition is the
per-column composition of the two stages). -/
def coerceColumn (c : Column) : Column :=
  datetimeStage (numericStage c)

/-- Row count of a dataframe: the length of its first column (a real pandas
frame has equal-length columns). -/
def nRows (df : DataFrame) : Nat :=
  match df with
  | [] => 0
  | c :: _ => c.values.length

/-- The i-th row of a dataframe: the i-th cell of each column. -/
def rowAt (df : DataFrame) (i : Nat) : Row :=
  df.map (fun c => c.values.getD i Value.vNull)

/-- All rows of a dataframe, in order. -/
def getRows (df : DataFrame) : List Row :=
  (List.range (nRows df)).map (rowAt df)

/-- Order-preserving removal of duplicate rows keeping the first occurrence
of each, with the rows already seen as accumulator. -/
def dedupRowsAux (seen : List Row) : List Row → List Row
  | [] => []
  | r :: rs =>
    if r ∈ seen then dedupRowsAux seen rs
    else r :: dedupRowsAux (r :: seen) rs

/-- Models DataFrame.drop_duplicates at the row level: keep the first
occurrence of every distinct row, preserving order. -/
def dedupRows (rows : List Row) : List Row :=
  dedupRowsAux [] rows

/-- Rebuild columns from a list of rows: column j of the result keeps the
j-th input column's name and dtype and takes the j-th cell of every row. -/
def rebuildFrom (rows : List Row) (j : Nat) : DataFrame → DataFrame
  | [] => []
  | c :: cs =>
    { c with values := rows.map (fun r => r.getD j Value.vNull) } ::
      rebuildFrom rows (j + 1) cs

/-- Models df.drop_duplicates(): deduplicate the rows, then rebuild the
columns. -/
def dropDuplicates (df : DataFrame) : DataFrame :=
  rebuildFrom (dedupRows (getRows df)) 0 df

/-- The Normalizer, prepare_taxi_data: apply the numeric coercion loop and
the datetime heuristic loop to every column, then drop exact-duplicate rows
(the df.copy() calls are no-ops on the value level). -/
def prepareTaxiData (df : DataFrame) : DataFrame :=
  dropDuplicates (df.map coerceColumn)

/-- Number of duplicate rows removed, the observable side note the source
reports (initial_rows - len(df_clean)). -/
def removedRows (df : DataFrame) : Nat :=
  nRows (df.map coerceColumn) - nRows (prepareTaxiData df)

/-- A dataframe is rectangular: every column has the row count's length.
This is the pandas DataFrame invariant (equal-length columns). -/
def Rect (df : DataFrame) : Prop :=
  ∀ c ∈ df, c.values.length = nRows df

instance (df : DataFrame) : Decidable (Rect df) := by
  unfold Rect; infer_instance

example : prepareTaxiData [] = [] := by decide

/-!
The Remote Fetcher: load_data_from_gdrive.  The regular expressions of the
source are literal-then-capture patterns; re.search on such a pattern finds
the leftmost position where the literal occurs followed by at least one
identifier character, and the greedy capture group takes the maximal run of
identifier characters after the literal.
-/

/-- The character class of the capture groups, a-zA-Z0-9_- in all three
patterns. -/
def isIdChar (c : Char) : Bool :=
  c.isAlphanum || c = '_' || c = '-'

/-- The maximal leading run of identifier characters (the greedy capture of
the group, since nothing follows the group in the patterns). -/
def idTake : List Char → List Char
  | [] => []
  | c :: cs => if isIdChar c then c :: idTake cs else []

/-- Match a literal at the head of a character list, returning the
remainder after the literal on success. -/
def litMatch : List Char → List Char → Option (List Char)
  | [], cs => some cs
  | _ :: _, [] => none
  | l :: ls, c :: cs => if l = c then litMatch ls cs else none

/-- Try the literal-then-capture pattern at the current position: the
literal must match here and at least one identifier character must follow;
the capture is the maximal identifier run after the literal. -/
def matchAt (lit cs : List Char) : Option (List Char) :=
  match litMatch lit cs with
  | some rest =>
    match idTake rest with
    | [] => none
    | c :: cap => some (c :: cap)
  | none => none

/-- Models re.search for a literal-then-capture pattern: scan positions
left to right, returning the capture of the first position where the whole
pattern matches. -/
def searchCapture (lit : List Char) : List Char → Option (List Char)
  | [] => none
  | c :: cs =>
    match matchAt lit (c :: cs) with
    | some cap => some cap
    | none => searchCapture lit cs

/-- The literal part of pattern 1, /file/d/([a-zA-Z0-9_-]+). -/
def pat1 : List Char := "/file/d/".toList

/-- The literal part of pattern 2, id=([a-zA-Z0-9_-]+). -/
def pat2 : List Char := "id=".toList

/-- The literal part of pattern 3, /open\?id=([a-zA-Z0-9_-]+) (the escaped
question mark is a literal character). -/
def pat3 : List Char := "/open?id=".toList

/-- The file-id extraction of load_data_from_gdrive: try pattern 1, then
(only if file_id is still unset) pattern 2, then pattern 3; the first
successful search's capture is the file id, and None if all three fail. -/
def extractFileId (url : String) : Option String :=
  match searchCapture pat1 url.toList with
  | some cap => some (String.mk cap)
  | none =>
    match searchCapture pat2 url.toList with
    | some cap => some (String.mk cap)
    | none =>
      match searchCapture pat3 url.toList with
      | some cap => some (String.mk cap)
      | none => none

/-- Extraction restricted to the first two patterns only, the candidate
refinement of the implicit claim that pattern 3 is redundant. -/
def extractFileIdTwo (url : String) : Option String :=
  match searchCapture pat1 url.toList with
  | some cap => some (String.mk cap)
  | none =>
    match searchCapture pat2 url.toList with
    | some cap => some (String.mk cap)
    | none => none

example : extractFileId "https://drive.example.com/file/d/ABC123/view?usp=sharing"
    = some "ABC123" := by decide

example : extractFileId "not-a-url" = none := by decide

example : extractFileId "https://drive.example.com/uc?id=XYZ789" = some "XYZ789" := by decide

/-!
The effectful part of load_data_from_gdrive.  The transport library calls
(gdown.download, requests.get), the pandas file readers and the filesystem
are modelled by an environment of oracles; the function returns its result
together with the trace of external effects it performed and the final
filesystem, so that absence of network calls and of file writes is a
statement about the trace.
-/

/-- The failure reasons of the spec's LoadResult; each corresponds to one
distinct early-return branch of load_data_from_gdrive. -/
inductive FetchErr where
  | invalidReference
  | downloadError
  | unsupportedFormat
  | parseError
deriving DecidableEq, Repr

/-- The tagged outcome of the Fetcher (the source returns the dataframe or
None with a branch-specific error message). -/
inductive LoadResult where
  | loaded (df : DataFrame)
  | failed (e : FetchErr)
deriving DecidableEq, Repr

/-- The three parser families the source dispatches to. -/
inductive FileFormat where
  | csv
  | parquet
  | excel
deriving DecidableEq, Repr

/-- An observable external effect of the Fetcher. -/
inductive Effect where
  | netGdown (url : String)
  | netHttp (url : String) (followRedirects : Bool)
  | fWrite (path : String) (content : List Nat)
  | parseFile (fmt : FileFormat) (path : String)
deriving DecidableEq, Repr

/-- Outcome of the primary transport call gdown.download: a returned value
(its Optional path result, plus the bytes it wrote to the destination, if
any), or an AttributeError, or any other exception. -/
inductive GdownOutcome where
  | ok (result : Option String) (written : Option (List Nat))
  | attrError
  | otherError
deriving DecidableEq, Repr

/-- Outcome of the fallback requests.get call: a response with a status
code and a body, or an exception. -/
inductive HttpOutcome where
  | response (status : Nat) (body : List Nat)
  | exn
deriving DecidableEq, Repr

/-- The local filesystem: named files with byte contents. -/
abbrev FileSys := List (String × List Nat)

/-- Write a file (create or overwrite). -/
def setFile (fs : FileSys) (name : String) (content : List Nat) : FileSys :=
  (name, content) :: fs

/-- Models os.path.exists. -/
def existsFile (fs : FileSys) (name : String) : Bool :=
  fs.any (fun p => p.1 = name)

/-- The oracle environment for one Fetcher run: what the transport calls
and the parsers would do. -/
structure TransportEnv where
  gdown : GdownOutcome
  http : HttpOutcome
  parse : FileFormat → Option DataFrame

/-- Models the Python str.endswith test on filenames (String.endsWith of
the core library does not reduce under kernel evaluation, so the suffix test is
spelled out on character lists). -/
def endsWithStr (s e : String) : Bool :=
  List.isPrefixOf e.toList.reverse s.toList.reverse

/-- The parse dispatch tail of load_data_from_gdrive for one chosen
format: run the parser; a raised parse exception is caught by the outer
try/except and surfaced as a failure (ParseError). -/
def finishParse (env : TransportEnv) (fmt : FileFormat) (name : String)
    (fs : FileSys) (tr : List Effect) : LoadResult × List Effect × FileSys :=
  match env.parse fmt with
  | some df => (.loaded df, tr ++ [.parseFile fmt name], fs)
  | none => (.failed .parseError, tr ++ [.parseFile fmt name], fs)

/-- The extension dispatch of load_data_from_gdrive: endswith .csv, then
.parquet, then .xlsx or .xls, in the source's order; any other name is an
unsupported format and no parser runs. -/
def parseStage (env : TransportEnv) (outputFilename : String)
    (fs : FileSys) (tr : List Effect) : LoadResult × List Effect × FileSys :=
  if endsWithStr outputFilename ".csv" then
    finishParse env .csv outputFilename fs tr
  else if endsWithStr outputFilename ".parquet" then
    finishParse env .parquet outputFilename fs tr
  else if endsWithStr outputFilename ".xlsx" || endsWithStr outputFilename ".xls" then
    finishParse env .excel outputFilename fs tr
  else (.failed .unsupportedFormat, tr, fs)

/-- The check after the download block: if result is None or the
destination file does not exist, fail; otherwise parse by extension. -/
def postTransfer (env : TransportEnv) (result : Option String)
    (outputFilename : String) (fs : FileSys) (tr : List Effect) :
    LoadResult × List Effect × FileSys :=
  match result with
  | none => (.failed .downloadError, tr, fs)
  | some _ =>
    if existsFile fs outputFilename then parseStage env outputFilename fs tr
    else (.failed .downloadError, tr, fs)

/-- The Fetcher, load_data_from_gdrive: extract the file id (None on no
pattern match, before any network call); build the canonical download URL;
call gdown.download; on AttributeError fall back to one requests.get with
allow_redirects, writing the body verbatim when the status code equals 200
and failing on any other status or exception; then the result-and-existence
check and the extension dispatch. -/
def loadDataFromGdrive (env : TransportEnv) (fs0 : FileSys)
    (gdriveUrl : String) (outputFilename : String) :
    LoadResult × List Effect × FileSys :=
  match extractFileId gdriveUrl with
  | none => (.failed .invalidReference, [], fs0)
  | some fid =>
    match env.gdown with
    | .ok result written =>
      postTransfer env result outputFilename
        (match written with
          | some content => setFile fs0 outputFilename content
          | none => fs0)
        [.netGdown ("https://drive.google.com/uc?id=" ++ fid)]
    | .attrError =>
      match env.http with
      | .response status body =>
        if status = 200 then
          postTransfer env (some outputFilename) outputFilename
            (setFile fs0 outputFilename body)
            [.netGdown ("https://drive.google.com/uc?id=" ++ fid),
              .netHttp ("https://drive.google.com/uc?id=" ++ fid) true,
              .fWrite outputFilename body]
        else
          (.failed .downloadError,
            [.netGdown ("https://drive.google.com/uc?id=" ++ fid),
              .netHttp ("https://drive.google.com/uc?id=" ++ fid) true], fs0)
      | .exn =>
        (.failed .downloadError,
          [.netGdown ("https://drive.google.com/uc?id=" ++ fid),
            .netHttp ("https://drive.google.com/uc?id=" ++ fid) true], fs0)
    | .otherError =>
      (.failed .downloadError,
        [.netGdown ("https://drive.google.com/uc?id=" ++ fid)], fs0)

/-- Whether an effect is a network call. -/
def isNetworkEffect : Effect → Bool
  | .netGdown _ => true
  | .netHttp _ _ => true
  | _ => false

/-- Whether an effect is a file write. -/
def isWriteEffect : Effect → Bool
  | .fWrite _ _ => true
  | _ => false

/-- Whether an effect is the fallback HTTP GET. -/
def isHttpGet : Effect → Bool
  | .netHttp _ _ => true
  | _ => false

/-- Whether an effect is a parse attempt. -/
def isParseEffect : Effect → Bool
  | .parseFile _ _ => true
  | _ => false

/-- The HTTP success class (2xx), following the spec's words; the source
itself compares the status to 200 exactly. -/
def isSuccessStatus (status : Nat) : Bool :=
  200 ≤ status && status < 300

/-!
An exception-threaded variant of the Normalizer, used to state that it
never raises: the column-level pd.to_datetime call is the one fallible
library call inside prepare_taxi_data, and the source wraps it in
try/except pass.
-/

/-- Models pd.to_datetime(series, errors=coerce) with its failure made
explicit as an Except error (the exception the source's try/except
swallows). -/
def pdToDatetimeE (vs : List Value) : Except String (List Value) :=
  if mixedTz vs then .error "cannot mix tz-aware with tz-naive values"
  else .ok (vs.map (pdToDatetimeValue parseTimestamp?))

/-- The datetime loop body with the exception explicit: the except-pass
handler turns the error into the unchanged column, so the stage always
returns ok. -/
def datetimeStageE (c : Column) : Except String Column :=
  if nameMatches c.name then
    match pdToDatetimeE c.values with
    | .ok vs => .ok { c with dtype := .dDatetime, values := vs }
    | .error _ => .ok c
  else .ok c

/-- Per-column coercion with the exception explicit. -/
def coerceColumnE (c : Column) : Except String Column :=
  datetimeStageE (numericStage c)

/-- Exception-threaded traversal of the columns. -/
def mapColumnsE : DataFrame → Except String DataFrame
  | [] => .ok []
  | c :: cs =>
    match coerceColumnE c with
    | .error e => .error e
    | .ok c2 =>
      match mapColumnsE cs with
      | .error e => .error e
      | .ok cs2 => .ok (c2 :: cs2)

/-- prepare_taxi_data with every fallible library call threaded through
Except: an uncaught exception anywhere would surface as an error here. -/
def prepareTaxiDataE (df : DataFrame) : Except String DataFrame :=
  match mapColumnsE df with
  | .error e => .error e
  | .ok cols => .ok (dropDuplicates cols)

/-!
Basic lemmas about the Normalizer's stages.
-/

theorem numericStage_name (c : Column) : (numericStage c).name = c.name := by
  unfold numericStage; split <;> rfl

theorem numericStage_dtype (c : Column) : (numericStage c).dtype = c.dtype := by
  unfold numericStage; split <;> rfl

theorem numericStage_length (c : Column) :
    (numericStage c).values.length = c.values.length := by
  unfold numericStage; split <;> simp

theorem pdToDatetime_length {vs ws : List Value} (h : pdToDatetime vs = some ws) :
    ws.length = vs.length := by
  unfold pdToDatetime at h
  split at h
  · exact absurd h (by simp)
  · simp only [Option.some.injEq] at h
    subst h; simp

theorem datetimeStage_name (c : Column) : (datetimeStage c).name = c.name := by
  unfold datetimeStage
  split
  · split <;> rfl
  · rfl

theorem datetimeStage_length (c : Column) :
    (datetimeStage c).values.length = c.values.length := by
  unfold datetimeStage
  split
  · split
    · next vs h => simpa using pdToDatetime_length h
    · rfl
  · rfl

theorem coerceColumn_name (c : Column) : (coerceColumn c).name = c.name := by
  unfold coerceColumn
  rw [datetimeStage_name, numericStage_name]

theorem coerceColumn_length (c : Column) :
    (coerceColumn c).values.length = c.values.length := by
  unfold coerceColumn
  rw [datetimeStage_length, numericStage_length]

/-!
Lemmas about row deduplication.
-/

theorem dedupRowsAux_length (seen : List Row) (rows : List Row) :
    (dedupRowsAux seen rows).length ≤ rows.length := by
  induction rows generalizing seen with
  | nil => simp [dedupRowsAux]
  | cons r rs ih =>
    unfold dedupRowsAux
    split
    · exact Nat.le_succ_of_le (ih seen)
    · simpa using ih (r :: seen)

theorem dedupRows_length (rows : List Row) :
    (dedupRows rows).length ≤ rows.length :=
  dedupRowsAux_length [] rows

theorem mem_dedupRowsAux {x : Row} (seen rows : List Row) :
    x ∈ dedupRowsAux seen rows ↔ x ∈ rows ∧ x ∉ seen := by
  induction rows generalizing seen with
  | nil => simp [dedupRowsAux]
  | cons r rs ih =>
    unfold dedupRowsAux
    split
    · next hr =>
      rw [ih seen]
      constructor
      · rintro ⟨h1, h2⟩; exact ⟨List.mem_cons_of_mem _ h1, h2⟩
      · rintro ⟨h1, h2⟩
        rcases List.mem_cons.mp h1 with h | h
        · subst h; exact absurd hr h2
        · exact ⟨h, h2⟩
    · next hr =>
      simp only [List.mem_cons, ih (r :: seen)]
      constructor
      · rintro (h | ⟨h1, h2⟩)
        · subst h; exact ⟨Or.inl rfl, hr⟩
        · exact ⟨Or.inr h1, fun hx => h2 (Or.inr hx)⟩
      · rintro ⟨h1 | h1, h2⟩
        · exact Or.inl h1
        · by_cases hxr : x = r
          · exact Or.inl hxr
          · exact Or.inr ⟨h1, fun hx => hx.elim hxr h2⟩

theorem mem_dedupRows {x : Row} (rows : List Row) :
    x ∈ dedupRows rows ↔ x ∈ rows := by
  unfold dedupRows
  rw [mem_dedupRowsAux]
  simp

theorem dedupRowsAux_nodup (seen rows : List Row) :
    (dedupRowsAux seen rows).Nodup := by
  induction rows generalizing seen with
  | nil => simp [dedupRowsAux]
  | cons r rs ih =>
    unfold dedupRowsAux
    split
    · exact ih seen
    · refine List.nodup_cons.mpr ⟨fun hx => ?_, ih (r :: seen)⟩
      exact ((mem_dedupRowsAux (r :: seen) rs).mp hx).2 (List.mem_cons_self r _)

theorem dedupRows_nodup (rows : List Row) : (dedupRows rows).Nodup :=
  dedupRowsAux_nodup [] rows

theorem dedupRowsAux_eq_self (seen rows : List Row)
    (hdisj : ∀ x ∈ rows, x ∉ seen) (hnd : rows.Nodup) :
    dedupRowsAux seen rows = rows := by
  induction rows generalizing seen with
  | nil => simp [dedupRowsAux]
  | cons r rs ih =>
    unfold dedupRowsAux
    split
    · next hr => exact absurd hr (hdisj r (List.mem_cons_self r _))
    · next hr =>
      congr 1
      refine ih (r :: seen) (fun x hx hmem => ?_) (List.nodup_cons.mp hnd).2
      rcases List.mem_cons.mp hmem with h | h
      · exact (List.nodup_cons.mp hnd).1 (h ▸ hx)
      · exact hdisj x (List.mem_cons_of_mem _ hx) h

theorem dedupRows_eq_self {rows : List Row} (hnd : rows.Nodup) :
    dedupRows rows = rows :=
  dedupRowsAux_eq_self [] rows (by simp) hnd

/-!
Per-value stability of the two coercions, and stability of the column-level
datetime failure condition under row selection.
-/

theorem pdToNumericValue_idem (v : Value) :
    pdToNumericValue (pdToNumericValue v) = pdToNumericValue v := by
  cases v with
  | vNum n => rfl
  | vStr s => cases h : s.toInt? <;> simp [pdToNumericValue, h]
  | vTimestamp t tz => rfl
  | vNull => rfl

theorem pdToDatetimeValue_idem (p : String → Option Int) (v : Value) :
    pdToDatetimeValue p (pdToDatetimeValue p v) = pdToDatetimeValue p v := by
  cases v with
  | vNum n => rfl
  | vStr s => cases h : p s <;> simp [pdToDatetimeValue, h]
  | vTimestamp t tz => rfl
  | vNull => rfl

theorem map_self_of_mem_map {f : Value → Value}
    (hf : ∀ v, f (f v) = f v) {vs ws : List Value}
    (h : ∀ w ∈ ws, w ∈ vs.map f) : ws.map f = ws := by
  induction ws with
  | nil => rfl
  | cons w ws ih =>
    have hw : w ∈ vs.map f := h w (List.mem_cons_self _ _)
    rcases List.mem_map.mp hw with ⟨v, _, hv⟩
    simp only [List.map_cons]
    congr 1
    · rw [← hv, hf v]
    · exact ih (fun x hx => h x (List.mem_cons_of_mem _ hx))

theorem mixedTz_eq_true {vs : List Value} :
    mixedTz vs = true ↔
      (∃ v ∈ vs, isAware v = true) ∧ ∃ v ∈ vs, isNaive v = true := by
  simp [mixedTz, List.any_eq_true]

theorem mixedTz_true_of_superset {vs ws : List Value}
    (hsup : ∀ v ∈ vs, v ∈ ws) (h : mixedTz vs = true) : mixedTz ws = true := by
  rcases mixedTz_eq_true.mp h with ⟨⟨a, ha, hA⟩, ⟨b, hb, hB⟩⟩
  exact mixedTz_eq_true.mpr ⟨⟨a, hsup a ha, hA⟩, ⟨b, hsup b hb, hB⟩⟩

theorem mixedTz_false_of_subset {vs ws : List Value}
    (hsub : ∀ v ∈ ws, v ∈ vs) (h : mixedTz vs = false) : mixedTz ws = false := by
  cases hmw : mixedTz ws
  · rfl
  · exact absurd (mixedTz_true_of_superset hsub hmw) (by rw [h]; simp)

theorem pdToNumericValue_no_timestamp (v : Value) :
    isAware (pdToNumericValue v) = false ∧ isNaive (pdToNumericValue v) = false := by
  cases v with
  | vNum n => exact ⟨rfl, rfl⟩
  | vStr s => cases h : s.toInt? <;> simp [pdToNumericValue, h, isAware, isNaive]
  | vTimestamp t tz => exact ⟨rfl, rfl⟩
  | vNull => exact ⟨rfl, rfl⟩

theorem mixedTz_map_numeric (vs : List Value) :
    mixedTz (vs.map pdToNumericValue) = false := by
  have h1 : (vs.map pdToNumericValue).any isAware = false := by
    rw [List.any_eq_false]
    intro x hx
    rcases List.mem_map.mp hx with ⟨v, _, rfl⟩
    simp [(pdToNumericValue_no_timestamp v).1]
  simp [mixedTz, h1]

/-!
Equation lemmas for the Normalizer's stages.
-/

theorem numericStage_float {c : Column} (h : c.dtype = .dFloat) :
    numericStage c = { c with values := c.values.map pdToNumericValue } := by
  unfold numericStage; rw [h]

theorem numericStage_int {c : Column} (h : c.dtype = .dInt) :
    numericStage c = { c with values := c.values.map pdToNumericValue } := by
  unfold numericStage; rw [h]

theorem numericStage_datetime {c : Column} (h : c.dtype = .dDatetime) :
    numericStage c = c := by
  unfold numericStage; rw [h]

theorem numericStage_object {c : Column} (h : c.dtype = .dObject) :
    numericStage c = c := by
  unfold numericStage; rw [h]

theorem datetimeStage_of_not_matches {c : Column} (h : nameMatches c.name = false) :
    datetimeStage c = c := by
  simp [datetimeStage, h]

theorem datetimeStage_matches_some {c : Column} (h : nameMatches c.name = true)
    {vs : List Value} (hd : pdToDatetime c.values = some vs) :
    datetimeStage c = { c with dtype := .dDatetime, values := vs } := by
  simp [datetimeStage, h, hd]

theorem datetimeStage_matches_none {c : Column} (h : nameMatches c.name = true)
    (hd : pdToDatetime c.values = none) : datetimeStage c = c := by
  simp [datetimeStage, h, hd]

theorem pdToDatetime_of_not_mixed {vs : List Value} (h : mixedTz vs = false) :
    pdToDatetime vs = some (vs.map (pdToDatetimeValue parseTimestamp?)) := by
  simp [pdToDatetime, h]

theorem pdToDatetime_of_mixed {vs : List Value} (h : mixedTz vs = true) :
    pdToDatetime vs = none := by
  simp [pdToDatetime, h]

theorem pdToDatetime_some_eq {vs ws : List Value} (h : pdToDatetime vs = some ws) :
    ws = vs.map (pdToDatetimeValue parseTimestamp?) ∧ mixedTz vs = false := by
  unfold pdToDatetime at h
  split at h
  · exact absurd h (by simp)
  · next hmix =>
    refine ⟨(Option.some.inj h).symm, ?_⟩
    simpa using hmix

theorem mixed_of_pdToDatetime_none {vs : List Value} (h : pdToDatetime vs = none) :
    mixedTz vs = true := by
  by_cases hm : mixedTz vs = true
  · exact hm
  · rw [pdToDatetime_of_not_mixed (by simpa using hm)] at h
    cases h

/-- The key stability fact behind idempotence: replacing the values of a
once-coerced column by any set-equivalent selection of them (which is what
duplicate-row removal does to a column) yields a column that coerceColumn
fixes. -/
theorem coerceColumn_stable (c : Column) (ws : List Value)
    (hsub : ∀ v ∈ ws, v ∈ (coerceColumn c).values)
    (hsup : ∀ v ∈ (coerceColumn c).values, v ∈ ws) :
    coerceColumn (Column.mk c.name (coerceColumn c).dtype ws) =
      Column.mk c.name (coerceColumn c).dtype ws := by
  by_cases hm : nameMatches c.name = true
  case neg =>
    have hm' : nameMatches c.name = false := by simpa using hm
    have hcc : coerceColumn c = numericStage c := by
      rw [coerceColumn]
      exact datetimeStage_of_not_matches (by rw [numericStage_name]; exact hm')
    rw [hcc] at hsub hsup ⊢
    rw [numericStage_dtype]
    rw [coerceColumn]
    rw [datetimeStage_of_not_matches (c := numericStage (Column.mk c.name c.dtype ws))
      (by rw [numericStage_name]; exact hm')]
    cases hdt : c.dtype with
    | dFloat =>
      rw [numericStage_float hdt] at hsub
      simp only at hsub
      rw [numericStage_float (c := Column.mk c.name .dFloat ws) rfl]
      simp only [Column.mk.injEq]
      exact ⟨trivial, trivial, map_self_of_mem_map pdToNumericValue_idem hsub⟩
    | dInt =>
      rw [numericStage_int hdt] at hsub
      simp only at hsub
      rw [numericStage_int (c := Column.mk c.name .dInt ws) rfl]
      simp only [Column.mk.injEq]
      exact ⟨trivial, trivial, map_self_of_mem_map pdToNumericValue_idem hsub⟩
    | dDatetime => exact numericStage_datetime rfl
    | dObject => exact numericStage_object rfl
  case pos =>
    cases hdd : pdToDatetime (numericStage c).values with
    | some vs2 =>
      have hcc : coerceColumn c =
          { numericStage c with dtype := .dDatetime, values := vs2 } := by
        rw [coerceColumn]
        exact datetimeStage_matches_some (by rw [numericStage_name]; exact hm) hdd
      rcases pdToDatetime_some_eq hdd with ⟨hvs2, _⟩
      rw [hcc] at hsub hsup ⊢
      simp only at hsub hsup ⊢
      rw [coerceColumn]
      rw [numericStage_datetime (c := Column.mk c.name .dDatetime ws) rfl]
      by_cases hmix : mixedTz ws = true
      · exact datetimeStage_matches_none hm (pdToDatetime_of_mixed hmix)
      · have hmix' : mixedTz ws = false := by simpa using hmix
        rw [datetimeStage_matches_some (c := Column.mk c.name .dDatetime ws) hm
          (pdToDatetime_of_not_mixed hmix')]
        simp only [Column.mk.injEq]
        refine ⟨trivial, trivial, ?_⟩
        rw [hvs2] at hsub
        exact map_self_of_mem_map (pdToDatetimeValue_idem parseTimestamp?) hsub
    | none =>
      have hmixc : mixedTz (numericStage c).values = true :=
        mixed_of_pdToDatetime_none hdd
      have hcc : coerceColumn c = numericStage c := by
        rw [coerceColumn]
        exact datetimeStage_matches_none (by rw [numericStage_name]; exact hm) hdd
      cases hdt : c.dtype with
      | dFloat =>
        rw [numericStage_float hdt] at hmixc
        simp only at hmixc
        rw [mixedTz_map_numeric] at hmixc
        cases hmixc
      | dInt =>
        rw [numericStage_int hdt] at hmixc
        simp only at hmixc
        rw [mixedTz_map_numeric] at hmixc
        cases hmixc
      | dDatetime =>
        have hns : numericStage c = c := numericStage_datetime hdt
        rw [hcc, hns] at hsub hsup ⊢
        rw [hdt]
        rw [hns] at hmixc
        have hmixw : mixedTz ws = true := mixedTz_true_of_superset hsup hmixc
        rw [coerceColumn]
        rw [numericStage_datetime (c := Column.mk c.name .dDatetime ws) rfl]
        exact datetimeStage_matches_none hm (pdToDatetime_of_mixed hmixw)
      | dObject =>
        have hns : numericStage c = c := numericStage_object hdt
        rw [hcc, hns] at hsub hsup ⊢
        rw [hdt]
        rw [hns] at hmixc
        have hmixw : mixedTz ws = true := mixedTz_true_of_superset hsup hmixc
        rw [coerceColumn]
        rw [numericStage_object (c := Column.mk c.name .dObject ws) rfl]
        exact datetimeStage_matches_none hm (pdToDatetime_of_mixed hmixw)

/-!
Pointwise description of drop_duplicates and idempotence of the Normalizer.
-/

theorem rebuildFrom_getElem? (rows : List Row) (X : DataFrame) :
    ∀ (j k : Nat),
    (rebuildFrom rows j X)[k]? =
      (X[k]?).map
        (fun c => { c with values := rows.map (fun r => r.getD (j + k) Value.vNull) }) := by
  induction X with
  | nil => intro j k; simp [rebuildFrom]
  | cons c cs ih =>
    intro j k
    cases k with
    | zero => simp [rebuildFrom]
    | succ k =>
      simp only [rebuildFrom, List.getElem?_cons_succ]
      rw [ih (j + 1) k]
      have harith : j + 1 + k = j + (k + 1) := by omega
      rw [harith]

theorem dropDuplicates_getElem? (X : DataFrame) (k : Nat) :
    (dropDuplicates X)[k]? =
      (X[k]?).map
        (fun c => { c with
          values := (dedupRows (getRows X)).map (fun r => r.getD k Value.vNull) }) := by
  unfold dropDuplicates
  rw [rebuildFrom_getElem?]
  simp only [Nat.zero_add]

theorem nRows_map_coerce (df : DataFrame) :
    nRows (df.map coerceColumn) = nRows df := by
  cases df <;> simp [nRows, coerceColumn_length]

theorem rect_map_coerce {df : DataFrame} (h : Rect df) :
    Rect (df.map coerceColumn) := by
  intro c hc
  rcases List.mem_map.mp hc with ⟨c0, hc0, rfl⟩
  rw [coerceColumn_length, nRows_map_coerce]
  exact h c0 hc0

theorem rowAt_length (df : DataFrame) (i : Nat) : (rowAt df i).length = df.length := by
  simp [rowAt]

theorem mem_getRows {df : DataFrame} {r : Row} (h : r ∈ getRows df) :
    ∃ i, i < nRows df ∧ r = rowAt df i := by
  simp only [getRows, List.mem_map, List.mem_range] at h
  rcases h with ⟨i, hi, rfl⟩
  exact ⟨i, hi, rfl⟩

theorem rowAt_mem_getRows {df : DataFrame} {i : Nat} (h : i < nRows df) :
    rowAt df i ∈ getRows df := by
  simp only [getRows, List.mem_map, List.mem_range]
  exact ⟨i, h, rfl⟩

theorem rowAt_getD {df : DataFrame} {k : Nat} {c : Column}
    (hc : df[k]? = some c) (i : Nat) :
    (rowAt df i).getD k Value.vNull = c.values.getD i Value.vNull := by
  unfold rowAt
  rw [List.getD_eq_getElem?_getD, List.getElem?_map, hc]
  rfl

theorem getD_mem {l : List Value} {i : Nat} (h : i < l.length) :
    l.getD i Value.vNull ∈ l := by
  rw [List.getD_eq_getElem?_getD, List.getElem?_eq_getElem h]
  exact l.getElem_mem h

theorem exists_getD_of_mem {l : List Value} {v : Value} (h : v ∈ l) :
    ∃ i, i < l.length ∧ l.getD i Value.vNull = v := by
  rcases List.mem_iff_getElem?.mp h with ⟨i, hi⟩
  rcases List.getElem?_eq_some.mp hi with ⟨hlen, _⟩
  exact ⟨i, hlen, by rw [List.getD_eq_getElem?_getD, hi]; rfl⟩

theorem map_coerce_dropDuplicates {df : DataFrame} (h : Rect df) :
    (dropDuplicates (df.map coerceColumn)).map coerceColumn
      = dropDuplicates (df.map coerceColumn) := by
  have hrY : Rect (df.map coerceColumn) := rect_map_coerce h
  apply List.ext_getElem?
  intro k
  rw [List.getElem?_map, dropDuplicates_getElem?]
  cases hk : (df.map coerceColumn)[k]? with
  | none => rfl
  | some c2 =>
    have hmapk : (df[k]?).map coerceColumn = some c2 :=
      (List.getElem?_map coerceColumn df k).symm.trans hk
    rcases Option.map_eq_some'.mp hmapk with ⟨c0, hc0, hc2⟩
    subst hc2
    rw [Option.map_some', Option.map_some']
    have hc2mem : coerceColumn c0 ∈ df.map coerceColumn := List.getElem?_mem hk
    have hc2len : (coerceColumn c0).values.length = nRows (df.map coerceColumn) :=
      hrY _ hc2mem
    have hsub : ∀ v ∈ (dedupRows (getRows (df.map coerceColumn))).map
        (fun r => r.getD k Value.vNull), v ∈ (coerceColumn c0).values := by
      intro v hv
      rcases List.mem_map.mp hv with ⟨r, hr, rfl⟩
      rcases mem_getRows ((mem_dedupRows _).mp hr) with ⟨i, hi, rfl⟩
      rw [rowAt_getD hk]
      exact getD_mem (by rw [hc2len]; exact hi)
    have hsup : ∀ v ∈ (coerceColumn c0).values,
        v ∈ (dedupRows (getRows (df.map coerceColumn))).map
          (fun r => r.getD k Value.vNull) := by
      intro v hv
      rcases exists_getD_of_mem hv with ⟨i, hilt, hgd⟩
      have hiN : i < nRows (df.map coerceColumn) := by rw [← hc2len]; exact hilt
      refine List.mem_map.mpr ⟨rowAt (df.map coerceColumn) i, ?_, ?_⟩
      · exact (mem_dedupRows _).mpr (rowAt_mem_getRows hiN)
      · rw [rowAt_getD hk]; exact hgd
    have hst := coerceColumn_stable c0 _ hsub hsup
    congr 1
    show coerceColumn (Column.mk (coerceColumn c0).name (coerceColumn c0).dtype
        ((dedupRows (getRows (df.map coerceColumn))).map (fun r => r.getD k Value.vNull)))
      = Column.mk (coerceColumn c0).name (coerceColumn c0).dtype
        ((dedupRows (getRows (df.map coerceColumn))).map (fun r => r.getD k Value.vNull))
    rw [coerceColumn_name c0]
    exact hst

theorem nRows_dropDuplicates_ne {X : DataFrame} (h : X ≠ []) :
    nRows (dropDuplicates X) = (dedupRows (getRows X)).length := by
  cases X with
  | nil => exact absurd rfl h
  | cons c cs => simp [dropDuplicates, rebuildFrom, nRows]

theorem getRows_getElem? (df : DataFrame) (i : Nat) :
    (getRows df)[i]? = if i < nRows df then some (rowAt df i) else none := by
  unfold getRows
  by_cases hi : i < nRows df
  · rw [List.getElem?_map, List.getElem?_range hi, if_pos hi]; rfl
  · rw [List.getElem?_map, List.getElem?_eq_none (by simp; omega), if_neg hi]; rfl

theorem getRows_dropDuplicates {df : DataFrame} (h : Rect df) :
    getRows (dropDuplicates (df.map coerceColumn))
      = dedupRows (getRows (df.map coerceColumn)) := by
  have hrY : Rect (df.map coerceColumn) := rect_map_coerce h
  cases hdf : df with
  | nil => rfl
  | cons c0 rest =>
    rw [← hdf]
    have hne : df.map coerceColumn ≠ [] := by rw [hdf]; simp
    have hnD : nRows (dropDuplicates (df.map coerceColumn))
        = (dedupRows (getRows (df.map coerceColumn))).length :=
      nRows_dropDuplicates_ne hne
    apply List.ext_getElem?
    intro i
    rw [getRows_getElem?, hnD]
    by_cases hi : i < (dedupRows (getRows (df.map coerceColumn))).length
    case neg =>
      rw [if_neg hi, List.getElem?_eq_none (by omega)]
    case pos =>
      rw [if_pos hi]
      have hr : (dedupRows (getRows (df.map coerceColumn)))[i]?
          = some ((dedupRows (getRows (df.map coerceColumn)))[i]) :=
        List.getElem?_eq_getElem hi
      rw [hr]
      congr 1
      set r := (dedupRows (getRows (df.map coerceColumn)))[i] with hrdef
      have hrmem : r ∈ getRows (df.map coerceColumn) :=
        (mem_dedupRows _).mp (List.getElem?_mem hr)
      rcases mem_getRows hrmem with ⟨i0, hi0, hri0⟩
      have hrlen : r.length = (df.map coerceColumn).length := by
        rw [hri0]; exact rowAt_length _ _
      apply List.ext_getElem?
      intro k
      unfold rowAt
      rw [List.getElem?_map, dropDuplicates_getElem?]
      cases hk : (df.map coerceColumn)[k]? with
      | none =>
        have hklen : (df.map coerceColumn).length ≤ k :=
          List.getElem?_eq_none_iff.mp hk
        rw [Option.map_none', Option.map_none']
        exact (List.getElem?_eq_none (by omega)).symm
      | some c2 =>
        rw [Option.map_some', Option.map_some']
        have hkl : k < (df.map coerceColumn).length :=
          (List.getElem?_eq_some.mp hk).1
        have hkr : k < r.length := by omega
        rw [List.getElem?_eq_getElem hkr]
        congr 1
        show ((dedupRows (getRows (df.map coerceColumn))).map
          (fun r => r.getD k Value.vNull)).getD i Value.vNull = r[k]
        rw [List.getD_eq_getElem?_getD, List.getElem?_map, hr]
        show r.getD k Value.vNull = r[k]
        rw [List.getD_eq_getElem?_getD, List.getElem?_eq_getElem hkr]
        rfl

theorem dropDuplicates_fixed {df : DataFrame} (h : Rect df) :
    dropDuplicates (dropDuplicates (df.map coerceColumn))
      = dropDuplicates (df.map coerceColumn) := by
  conv_lhs => rw [dropDuplicates]
  rw [getRows_dropDuplicates h, dedupRows_eq_self (dedupRows_nodup _)]
  apply List.ext_getElem?
  intro k
  rw [rebuildFrom_getElem?]
  simp only [Nat.zero_add]
  rw [dropDuplicates_getElem?]
  cases (df.map coerceColumn)[k]? with
  | none => rfl
  | some c2 => rfl

theorem getRows_length (df : DataFrame) : (getRows df).length = nRows df := by
  simp [getRows]

/-!
Lemmas for the exception-threaded Normalizer.
-/

theorem datetimeStageE_ok (c : Column) : datetimeStageE c = .ok (datetimeStage c) := by
  unfold datetimeStageE datetimeStage pdToDatetimeE pdToDatetime
  by_cases hm : nameMatches c.name
  · by_cases hx : mixedTz c.values <;> simp [hm, hx]
  · simp [hm]

theorem coerceColumnE_ok (c : Column) : coerceColumnE c = .ok (coerceColumn c) := by
  unfold coerceColumnE coerceColumn
  exact datetimeStageE_ok (numericStage c)

theorem mapColumnsE_ok (df : DataFrame) : mapColumnsE df = .ok (df.map coerceColumn) := by
  induction df with
  | nil => rfl
  | cons c cs ih =>
    unfold mapColumnsE
    rw [coerceColumnE_ok, ih]
    rfl

/-!
The claim theorems for the Normalizer.
-/

/-- A small concrete dataset: a datetime-named object column with one
malformed entry, a float column, and an exact-duplicate row (rows 0 and 2),
used to instantiate the Normalizer claims. -/
def sampleDf : DataFrame :=
  [Column.mk "tpep_pickup_datetime" .dObject
     [.vStr "2023-01-05 10:21:00", .vStr "garbage", .vStr "2023-01-05 10:21:00"],
   Column.mk "fare_amount" .dFloat [.vNum 10, .vNum 12, .vNum 10]]

/-- C1: the Normalizer is idempotent — applying prepare_taxi_data to its
own output yields the same dataset, for every rectangular (pandas-valid)
input dataframe: duplicate removal is a no-op on a deduplicated table and
both coercions are stable under re-coercion. -/
theorem normalizer_idempotent (df : DataFrame) (h : Rect df) :
    prepareTaxiData (prepareTaxiData df) = prepareTaxiData df := by
  unfold prepareTaxiData
  rw [map_coerce_dropDuplicates h]
  exact dropDuplicates_fixed h

/-- Witness for C1 at a concrete dataframe with a duplicate row and a
heuristically datetime-typed column. -/
theorem normalizer_idempotent_witness :
    Rect sampleDf ∧
      prepareTaxiData (prepareTaxiData sampleDf) = prepareTaxiData sampleDf :=
  ⟨by decide, normalizer_idempotent sampleDf (by decide)⟩

/-- C7: the Normalizer never adds rows — the output row count is at most
the input row count, the only row-level operation being duplicate
removal. -/
theorem normalizer_rowcount_monotone (df : DataFrame) :
    nRows (prepareTaxiData df) ≤ nRows df := by
  cases df with
  | nil => exact Nat.le_refl 0
  | cons c cs =>
    have h1 : nRows (prepareTaxiData (c :: cs))
        = (dedupRows (getRows ((c :: cs).map coerceColumn))).length := by
      unfold prepareTaxiData
      exact nRows_dropDuplicates_ne (by simp)
    rw [h1]
    calc (dedupRows (getRows ((c :: cs).map coerceColumn))).length
        ≤ (getRows ((c :: cs).map coerceColumn)).length := dedupRows_length _
      _ = nRows ((c :: cs).map coerceColumn) := getRows_length _
      _ = nRows (c :: cs) := nRows_map_coerce _

/-- C6: the Normalizer never raises — the exception-threaded version
always returns ok (the one fallible library call is wrapped in
try/except), and every per-value coercion failure, numeric or timestamp,
degrades to a null value. -/
theorem normalizer_never_raises (df : DataFrame) :
    prepareTaxiDataE df = .ok (prepareTaxiData df) ∧
    (∀ s : String, s.toInt? = none → pdToNumericValue (.vStr s) = .vNull) ∧
    (∀ s : String, parseTimestamp? s = none →
      pdToDatetimeValue parseTimestamp? (.vStr s) = .vNull) := by
  refine ⟨?_, ?_, ?_⟩
  · unfold prepareTaxiDataE prepareTaxiData
    rw [mapColumnsE_ok]
  · intro s hs; simp [pdToNumericValue, hs]
  · intro s hs; simp [pdToDatetimeValue, hs]

/-- The scenario column of C5: a pickup-named object column with one
malformed value among parseable timestamps. -/
def pickupScenario : Column :=
  Column.mk "tpep_pickup_datetime" .dObject
    [.vStr "2023-01-05 10:21:00", .vStr "garbage", .vStr "2023-01-07 09:00:00"]

/-- C5: every column whose lowercased name contains pickup, dropoff, date
or time gets timestamp parsing; a whole-column parse failure is swallowed
and leaves the column unchanged, a success converts each cell with
unparseable cells becoming null; in the scenario the malformed entry
becomes null, the others parse, and the column ends up datetime-typed. -/
theorem datetime_heuristic (c : Column) (h : nameMatches c.name = true) :
    (pdToDatetime (numericStage c).values = none → coerceColumn c = numericStage c) ∧
    (∀ vs, pdToDatetime (numericStage c).values = some vs →
      coerceColumn c = Column.mk c.name DType.dDatetime vs ∧
      vs = (numericStage c).values.map (pdToDatetimeValue parseTimestamp?)) ∧
    (∀ s : String, parseTimestamp? s = none →
      pdToDatetimeValue parseTimestamp? (.vStr s) = .vNull) ∧
    (∀ (s : String) (t : Int), parseTimestamp? s = some t →
      pdToDatetimeValue parseTimestamp? (.vStr s) = .vTimestamp t none) ∧
    prepareTaxiData [pickupScenario] =
      [Column.mk "tpep_pickup_datetime" DType.dDatetime
        [.vTimestamp 20230105 none, .vNull, .vTimestamp 20230107 none]] := by
  refine ⟨?_, ?_, ?_, ?_, ?_⟩
  · intro hd
    unfold coerceColumn
    exact datetimeStage_matches_none (by rw [numericStage_name]; exact h) hd
  · intro vs hd
    constructor
    · unfold coerceColumn
      rw [datetimeStage_matches_some (by rw [numericStage_name]; exact h) hd]
      show Column.mk (numericStage c).name DType.dDatetime vs = _
      rw [numericStage_name]
    · exact (pdToDatetime_some_eq hd).1
  · intro s hs; simp [pdToDatetimeValue, hs]
  · intro s t hs; simp [pdToDatetimeValue, hs]
  · rfl

/-- Witness for C5: the scenario conclusion, obtained from the theorem at
the concrete scenario column. -/
theorem datetime_heuristic_witness :
    prepareTaxiData [pickupScenario] =
      [Column.mk "tpep_pickup_datetime" DType.dDatetime
        [.vTimestamp 20230105 none, .vNull, .vTimestamp 20230107 none]] :=
  (datetime_heuristic pickupScenario (by decide)).2.2.2.2

/-!
Soundness and completeness of the literal-then-capture search, and the
ResourceId extraction claims.
-/

theorem litMatch_eq_append {lit : List Char} :
    ∀ {cs rest : List Char}, litMatch lit cs = some rest → cs = lit ++ rest := by
  induction lit with
  | nil =>
    intro cs rest h
    simp [litMatch] at h
    simp [h]
  | cons l ls ih =>
    intro cs rest h
    cases cs with
    | nil => simp [litMatch] at h
    | cons c cs2 =>
      unfold litMatch at h
      split at h
      · next heq =>
        subst heq
        rw [List.cons_append, ← ih h]
      · cases h

theorem litMatch_append (lit rest : List Char) : litMatch lit (lit ++ rest) = some rest := by
  induction lit with
  | nil => rfl
  | cons l ls ih => simp [litMatch, ih]

theorem idTake_all (cs : List Char) : (idTake cs).all isIdChar = true := by
  induction cs with
  | nil => rfl
  | cons c cs ih =>
    unfold idTake
    split
    · next h => simp [List.all_cons, h, ih]
    · rfl

theorem idTake_split (cs : List Char) :
    ∃ suf, cs = idTake cs ++ suf ∧ ∀ d, suf.head? = some d → isIdChar d = false := by
  induction cs with
  | nil => exact ⟨[], rfl, by simp⟩
  | cons c cs ih =>
    by_cases h : isIdChar c = true
    · rcases ih with ⟨suf, heq, hsuf⟩
      refine ⟨suf, ?_, hsuf⟩
      unfold idTake
      rw [if_pos h, List.cons_append, ← heq]
    · refine ⟨c :: cs, ?_, ?_⟩
      · unfold idTake
        rw [if_neg h]
        rfl
      · intro d hd
        simp only [List.head?_cons, Option.some.injEq] at hd
        rw [← hd]
        simpa using h

theorem matchAt_sound {lit cs cap : List Char} (h : matchAt lit cs = some cap) :
    cap ≠ [] ∧ cap.all isIdChar = true ∧
      ∃ suf, cs = lit ++ cap ++ suf ∧ ∀ d, suf.head? = some d → isIdChar d = false := by
  unfold matchAt at h
  cases hlm : litMatch lit cs with
  | none => rw [hlm] at h; cases h
  | some rest =>
    rw [hlm] at h
    dsimp only at h
    cases hit : idTake rest with
    | nil => rw [hit] at h; cases h
    | cons c cap2 =>
      rw [hit] at h
      dsimp only at h
      have hcap : cap = c :: cap2 := (Option.some.inj h).symm
      subst hcap
      refine ⟨by simp, by rw [← hit]; exact idTake_all rest, ?_⟩
      rcases idTake_split rest with ⟨suf, hsplit, hsuf⟩
      refine ⟨suf, ?_, hsuf⟩
      rw [litMatch_eq_append hlm, hsplit, hit]
      simp [List.append_assoc]

theorem searchCapture_sound {lit : List Char} :
    ∀ (cs : List Char) {cap : List Char}, searchCapture lit cs = some cap →
      cap ≠ [] ∧ cap.all isIdChar = true ∧
        ∃ pre suf, cs = pre ++ lit ++ cap ++ suf ∧
          ∀ d, suf.head? = some d → isIdChar d = false := by
  intro cs
  induction cs with
  | nil => intro cap h; simp [searchCapture] at h
  | cons c cs2 ih =>
    intro cap h
    unfold searchCapture at h
    cases hma : matchAt lit (c :: cs2) with
    | some cap2 =>
      rw [hma] at h
      have hcc : cap2 = cap := Option.some.inj h
      subst hcc
      rcases matchAt_sound hma with ⟨h1, h2, suf, h3, h4⟩
      exact ⟨h1, h2, [], suf, by simpa using h3, h4⟩
    | none =>
      rw [hma] at h
      rcases ih h with ⟨h1, h2, pre, suf, h3, h4⟩
      exact ⟨h1, h2, c :: pre, suf, by simp [h3, List.append_assoc], h4⟩

theorem searchCapture_isSome_of (lit : List Char) (pre : List Char) (c : Char)
    (rest : List Char) (hc : isIdChar c = true) :
    (searchCapture lit (pre ++ lit ++ (c :: rest))).isSome = true := by
  induction pre with
  | nil =>
    simp only [List.nil_append]
    have hid : idTake (c :: rest) = c :: idTake rest := by
      simp [idTake, hc]
    have hma : matchAt lit (lit ++ (c :: rest)) = some (c :: idTake rest) := by
      unfold matchAt
      rw [litMatch_append]
      dsimp only
      rw [hid]
    cases hcs : lit ++ (c :: rest) with
    | nil => exact absurd hcs (by simp)
    | cons x xs =>
      rw [hcs] at hma
      unfold searchCapture
      rw [hma]
      rfl
  | cons p pre2 ih =>
    simp only [List.cons_append]
    unfold searchCapture
    cases hma : matchAt lit (p :: (pre2 ++ lit ++ (c :: rest))) with
    | some cap => rfl
    | none =>
      simpa using ih

/-- C2: the ResourceId extraction tries the three substring patterns in the
fixed order file/d, id=, open?id=; the first pattern whose search succeeds
determines the result, which is exactly the captured identifier substring
(a nonempty maximal run of identifier characters right after the pattern
literal); the scenario URL yields ABC123. -/
theorem resourceId_extraction (url : String) (cap : List Char)
    (h : searchCapture pat1 url.toList = some cap ∨
      searchCapture pat1 url.toList = none ∧ searchCapture pat2 url.toList = some cap ∨
      searchCapture pat1 url.toList = none ∧ searchCapture pat2 url.toList = none ∧
        searchCapture pat3 url.toList = some cap) :
    extractFileId url = some (String.mk cap) ∧
    (∃ lit, (lit = pat1 ∨ lit = pat2 ∨ lit = pat3) ∧ cap ≠ [] ∧
      cap.all isIdChar = true ∧
      ∃ pre suf, url.toList = pre ++ lit ++ cap ++ suf ∧
        ∀ d, suf.head? = some d → isIdChar d = false) ∧
    extractFileId "https://drive.example.com/file/d/ABC123/view?usp=sharing"
      = some "ABC123" := by
  refine ⟨?_, ?_, by rfl⟩
  · rcases h with h1 | ⟨h1, h2⟩ | ⟨h1, h2, h3⟩
    · unfold extractFileId
      rw [h1]
    · unfold extractFileId
      rw [h1, h2]
    · unfold extractFileId
      rw [h1, h2, h3]
  · rcases h with h1 | ⟨h1, h2⟩ | ⟨h1, h2, h3⟩
    · rcases searchCapture_sound _ h1 with ⟨ha, hb, pre, suf, hc, hd⟩
      exact ⟨pat1, Or.inl rfl, ha, hb, pre, suf, hc, hd⟩
    · rcases searchCapture_sound _ h2 with ⟨ha, hb, pre, suf, hc, hd⟩
      exact ⟨pat2, Or.inr (Or.inl rfl), ha, hb, pre, suf, hc, hd⟩
    · rcases searchCapture_sound _ h3 with ⟨ha, hb, pre, suf, hc, hd⟩
      exact ⟨pat3, Or.inr (Or.inr rfl), ha, hb, pre, suf, hc, hd⟩

/-- Witness for C2: the scenario URL, matched by the first pattern. -/
theorem resourceId_extraction_witness :
    extractFileId "https://drive.example.com/file/d/ABC123/view?usp=sharing"
      = some (String.mk "ABC123".toList) :=
  (resourceId_extraction "https://drive.example.com/file/d/ABC123/view?usp=sharing"
    "ABC123".toList (Or.inl (by decide))).1

/-- C10: the third pattern never decides the extraction — whenever the
open?id= pattern matches, the id= pattern (tried earlier) also matches, so
extraction with all three patterns equals extraction with the first two
only. -/
theorem pattern3_redundant (url : String) : extractFileId url = extractFileIdTwo url := by
  unfold extractFileId extractFileIdTwo
  cases h1 : searchCapture pat1 url.toList with
  | some cap => rfl
  | none =>
    cases h2 : searchCapture pat2 url.toList with
    | some cap => rfl
    | none =>
      cases h3 : searchCapture pat3 url.toList with
      | none => rfl
      | some cap =>
        exfalso
        rcases searchCapture_sound _ h3 with ⟨hne, hall, pre, suf, heq, hmax⟩
        cases cap with
        | nil => exact hne rfl
        | cons c cap2 =>
          have hc : isIdChar c = true := by
            simp only [List.all_cons, Bool.and_eq_true] at hall
            exact hall.1
          have hpat : pat3 = "/open?".toList ++ pat2 := by rfl
          have hsplit : url.toList
              = (pre ++ "/open?".toList) ++ pat2 ++ (c :: (cap2 ++ suf)) := by
            rw [heq, hpat]
            simp [List.append_assoc]
          have hs := searchCapture_isSome_of pat2 (pre ++ "/open?".toList) c
            (cap2 ++ suf) hc
          rw [← hsplit] at hs
          rw [h2] at hs
          cases hs

/-!
Lemmas about the effectful Fetcher stages, and the Fetcher claims.
-/

theorem existsFile_setFile (fs : FileSys) (n : String) (c : List Nat) :
    existsFile (setFile fs n c) n = true := by
  simp [existsFile, setFile]

theorem finishParse_trace (env : TransportEnv) (fmt : FileFormat) (name : String)
    (fs : FileSys) (tr : List Effect) :
    (finishParse env fmt name fs tr).2.1 = tr ++ [Effect.parseFile fmt name] ∧
    (finishParse env fmt name fs tr).2.2 = fs := by
  unfold finishParse
  cases env.parse fmt <;> exact ⟨rfl, rfl⟩

theorem parseFile_mem_finishParse (env : TransportEnv) (fmt : FileFormat)
    (name : String) (fs : FileSys) (tr : List Effect) :
    Effect.parseFile fmt name ∈ (finishParse env fmt name fs tr).2.1 := by
  rw [(finishParse_trace env fmt name fs tr).1]
  simp

theorem parseStage_csv {env : TransportEnv} {fn : String} {fs : FileSys}
    {tr : List Effect} (h : endsWithStr fn ".csv" = true) :
    parseStage env fn fs tr = finishParse env .csv fn fs tr := by
  unfold parseStage
  rw [if_pos h]

theorem parseStage_parquet {env : TransportEnv} {fn : String} {fs : FileSys}
    {tr : List Effect} (h1 : endsWithStr fn ".csv" = false)
    (h2 : endsWithStr fn ".parquet" = true) :
    parseStage env fn fs tr = finishParse env .parquet fn fs tr := by
  simp [parseStage, h1, h2]

theorem parseStage_excel {env : TransportEnv} {fn : String} {fs : FileSys}
    {tr : List Effect} (h1 : endsWithStr fn ".csv" = false)
    (h2 : endsWithStr fn ".parquet" = false)
    (h3 : (endsWithStr fn ".xlsx" || endsWithStr fn ".xls") = true) :
    parseStage env fn fs tr = finishParse env .excel fn fs tr := by
  simp [parseStage, h1, h2, h3]

theorem parseStage_other {env : TransportEnv} {fn : String} {fs : FileSys}
    {tr : List Effect} (h1 : endsWithStr fn ".csv" = false)
    (h2 : endsWithStr fn ".parquet" = false) (h3 : endsWithStr fn ".xlsx" = false)
    (h4 : endsWithStr fn ".xls" = false) :
    parseStage env fn fs tr = (.failed .unsupportedFormat, tr, fs) := by
  simp [parseStage, h1, h2, h3, h4]

theorem parseStage_trace (env : TransportEnv) (fn : String) (fs : FileSys)
    (tr : List Effect) :
    ((parseStage env fn fs tr).2.1 = tr ∨
      ∃ fmt, (parseStage env fn fs tr).2.1 = tr ++ [Effect.parseFile fmt fn]) ∧
    (parseStage env fn fs tr).2.2 = fs := by
  unfold parseStage
  split
  · exact ⟨Or.inr ⟨.csv, (finishParse_trace env .csv fn fs tr).1⟩,
      (finishParse_trace env .csv fn fs tr).2⟩
  · split
    · exact ⟨Or.inr ⟨.parquet, (finishParse_trace env .parquet fn fs tr).1⟩,
        (finishParse_trace env .parquet fn fs tr).2⟩
    · split
      · exact ⟨Or.inr ⟨.excel, (finishParse_trace env .excel fn fs tr).1⟩,
          (finishParse_trace env .excel fn fs tr).2⟩
      · exact ⟨Or.inl rfl, rfl⟩

theorem postTransfer_trace (env : TransportEnv) (result : Option String)
    (fn : String) (fs : FileSys) (tr : List Effect) :
    ((postTransfer env result fn fs tr).2.1 = tr ∨
      ∃ fmt, (postTransfer env result fn fs tr).2.1 = tr ++ [Effect.parseFile fmt fn]) ∧
    (postTransfer env result fn fs tr).2.2 = fs := by
  cases result with
  | none => exact ⟨Or.inl rfl, rfl⟩
  | some p =>
    simp only [postTransfer]
    by_cases hex : existsFile fs fn = true
    · rw [if_pos hex]
      exact parseStage_trace env fn fs tr
    · rw [if_neg hex]
      exact ⟨Or.inl rfl, rfl⟩

/-- C3: a reference string matching none of the three patterns makes the
Fetcher fail with InvalidReference immediately: no network effect, no file
write, filesystem unchanged. -/
theorem invalid_reference_no_network (env : TransportEnv) (fs0 : FileSys)
    (url fn : String) (h : extractFileId url = none) :
    loadDataFromGdrive env fs0 url fn
      = (.failed .invalidReference, [], fs0) ∧
    (∀ e ∈ (loadDataFromGdrive env fs0 url fn).2.1,
      isNetworkEffect e = false ∧ isWriteEffect e = false) ∧
    (loadDataFromGdrive env fs0 url fn).2.2 = fs0 := by
  have h0 : loadDataFromGdrive env fs0 url fn = (.failed .invalidReference, [], fs0) := by
    unfold loadDataFromGdrive
    rw [h]
  refine ⟨h0, ?_, by rw [h0]⟩
  rw [h0]
  intro e he
  cases he

/-- An environment whose oracles are never consulted, for the C3 witness. -/
def noEnv : TransportEnv := ⟨.ok none none, .exn, fun _ => none⟩

/-- Witness for C3 at the scenario reference not-a-url. -/
theorem invalid_reference_no_network_witness :
    loadDataFromGdrive noEnv [] "not-a-url" "nyc_taxi_data.csv"
      = (.failed .invalidReference, [], []) ∧
    (∀ e ∈ (loadDataFromGdrive noEnv [] "not-a-url" "nyc_taxi_data.csv").2.1,
      isNetworkEffect e = false ∧ isWriteEffect e = false) ∧
    (loadDataFromGdrive noEnv [] "not-a-url" "nyc_taxi_data.csv").2.2 = [] :=
  invalid_reference_no_network noEnv [] "not-a-url" "nyc_taxi_data.csv" (by decide)

/-- C4: after a successful download (gdown returned a path and wrote the
file), the Fetcher dispatches purely on the output filename's extension:
.csv, then .parquet, then .xlsx/.xls, each to its parser; any other
extension yields Failed(UnsupportedFormat) with no parse attempted. -/
theorem extension_dispatch (env : TransportEnv) (fs0 : FileSys)
    (url fn fid p : String) (content : List Nat)
    (hx : extractFileId url = some fid)
    (hg : env.gdown = .ok (some p) (some content)) :
    (endsWithStr fn ".csv" = true →
      loadDataFromGdrive env fs0 url fn
        = finishParse env .csv fn (setFile fs0 fn content)
            [.netGdown ("https://drive.google.com/uc?id=" ++ fid)] ∧
      Effect.parseFile .csv fn ∈ (loadDataFromGdrive env fs0 url fn).2.1) ∧
    (endsWithStr fn ".csv" = false → endsWithStr fn ".parquet" = true →
      loadDataFromGdrive env fs0 url fn
        = finishParse env .parquet fn (setFile fs0 fn content)
            [.netGdown ("https://drive.google.com/uc?id=" ++ fid)] ∧
      Effect.parseFile .parquet fn ∈ (loadDataFromGdrive env fs0 url fn).2.1) ∧
    (endsWithStr fn ".csv" = false → endsWithStr fn ".parquet" = false →
      (endsWithStr fn ".xlsx" || endsWithStr fn ".xls") = true →
      loadDataFromGdrive env fs0 url fn
        = finishParse env .excel fn (setFile fs0 fn content)
            [.netGdown ("https://drive.google.com/uc?id=" ++ fid)] ∧
      Effect.parseFile .excel fn ∈ (loadDataFromGdrive env fs0 url fn).2.1) ∧
    (endsWithStr fn ".csv" = false → endsWithStr fn ".parquet" = false →
      endsWithStr fn ".xlsx" = false → endsWithStr fn ".xls" = false →
      (loadDataFromGdrive env fs0 url fn).1 = .failed .unsupportedFormat ∧
      ∀ e ∈ (loadDataFromGdrive env fs0 url fn).2.1, isParseEffect e = false) := by
  have hload : loadDataFromGdrive env fs0 url fn
      = parseStage env fn (setFile fs0 fn content)
          [.netGdown ("https://drive.google.com/uc?id=" ++ fid)] := by
    unfold loadDataFromGdrive
    rw [hx, hg]
    dsimp only
    unfold postTransfer
    rw [if_pos (existsFile_setFile fs0 fn content)]
  refine ⟨?_, ?_, ?_, ?_⟩
  · intro h1
    rw [hload, parseStage_csv h1]
    exact ⟨rfl, parseFile_mem_finishParse env .csv fn _ _⟩
  · intro h1 h2
    rw [hload, parseStage_parquet h1 h2]
    exact ⟨rfl, parseFile_mem_finishParse env .parquet fn _ _⟩
  · intro h1 h2 h3
    rw [hload, parseStage_excel h1 h2 h3]
    exact ⟨rfl, parseFile_mem_finishParse env .excel fn _ _⟩
  · intro h1 h2 h3 h4
    rw [hload, parseStage_other h1 h2 h3 h4]
    refine ⟨rfl, ?_⟩
    intro e he
    simp only [List.mem_singleton] at he
    subst he
    rfl

/-- Environment for the C4 witness: a primary transport call that returns a
path and writes bytes, with a csv parser that yields an empty frame. -/
def envW4 : TransportEnv := ⟨.ok (some "nyc_taxi_data.csv") (some [1, 2]), .exn, fun _ => some []⟩

/-- Witness for C4: the csv branch at a concrete successful download. -/
theorem extension_dispatch_witness :
    Effect.parseFile FileFormat.csv "nyc_taxi_data.csv"
      ∈ (loadDataFromGdrive envW4 [] "id=A" "nyc_taxi_data.csv").2.1 :=
  ((extension_dispatch envW4 [] "id=A" "nyc_taxi_data.csv" "A" "nyc_taxi_data.csv"
    [1, 2] (by decide) rfl).1 (by decide)).2

/-- C8 counterexample: the primary transport raises AttributeError and the
fallback GET answers with status 206 — a success-class HTTP status — yet
the Fetcher returns Failed(DownloadError) and writes no file, because the
source compares the status to 200 exactly, not to the success class. -/
def env206 : TransportEnv := ⟨.attrError, .response 206 [7], fun _ => none⟩

theorem fallback_success_counterexample :
    isSuccessStatus 206 = true ∧
    (loadDataFromGdrive env206 [] "id=A" "f.csv").1 = .failed .downloadError ∧
    ∀ e ∈ (loadDataFromGdrive env206 [] "id=A" "f.csv").2.1,
      isWriteEffect e = false := by
  refine ⟨by decide, by decide, by decide⟩

/-- C8 (amended): when the primary transport raises AttributeError, exactly
one fallback HTTP GET with redirect-following happens and no further retry;
the response body is written verbatim when the status equals 200 exactly;
any other status (success-class or not) or a secondary-transport exception
yields Failed(DownloadError) with no write. -/
theorem fallback_transport (env : TransportEnv) (fs0 : FileSys)
    (url fn fid : String)
    (hx : extractFileId url = some fid)
    (hg : env.gdown = .attrError) :
    ((loadDataFromGdrive env fs0 url fn).2.1.countP isHttpGet = 1 ∧
      Effect.netHttp ("https://drive.google.com/uc?id=" ++ fid) true
        ∈ (loadDataFromGdrive env fs0 url fn).2.1) ∧
    (∀ status body, env.http = .response status body → status ≠ 200 →
      (loadDataFromGdrive env fs0 url fn).1 = .failed .downloadError ∧
      ∀ e ∈ (loadDataFromGdrive env fs0 url fn).2.1, isWriteEffect e = false) ∧
    (env.http = .exn →
      (loadDataFromGdrive env fs0 url fn).1 = .failed .downloadError ∧
      ∀ e ∈ (loadDataFromGdrive env fs0 url fn).2.1, isWriteEffect e = false) ∧
    (∀ body, env.http = .response 200 body →
      Effect.fWrite fn body ∈ (loadDataFromGdrive env fs0 url fn).2.1 ∧
      (loadDataFromGdrive env fs0 url fn).2.2 = setFile fs0 fn body) := by
  cases henv : env.http with
  | exn =>
    have hload : loadDataFromGdrive env fs0 url fn
        = (.failed .downloadError,
            [.netGdown ("https://drive.google.com/uc?id=" ++ fid),
              .netHttp ("https://drive.google.com/uc?id=" ++ fid) true], fs0) := by
      unfold loadDataFromGdrive
      rw [hx, hg, henv]
    refine ⟨?_, ?_, ?_, ?_⟩
    · rw [hload]
      exact ⟨by simp [List.countP_cons, isHttpGet], by simp⟩
    · intro status body heq
      cases heq
    · intro _
      rw [hload]
      refine ⟨rfl, ?_⟩
      intro e he
      simp only [List.mem_cons, List.mem_singleton] at he
      rcases he with rfl | rfl | h
      · rfl
      · rfl
      · cases h
    · intro body heq
      cases heq
  | response status body =>
    by_cases hs : status = 200
    case pos =>
      subst hs
      have hload : loadDataFromGdrive env fs0 url fn
          = postTransfer env (some fn) fn (setFile fs0 fn body)
              [.netGdown ("https://drive.google.com/uc?id=" ++ fid),
                .netHttp ("https://drive.google.com/uc?id=" ++ fid) true,
                .fWrite fn body] := by
        unfold loadDataFromGdrive
        rw [hx, hg, henv]
        dsimp only
        rw [if_pos rfl]
      rcases postTransfer_trace env (some fn) fn (setFile fs0 fn body)
          [.netGdown ("https://drive.google.com/uc?id=" ++ fid),
            .netHttp ("https://drive.google.com/uc?id=" ++ fid) true,
            .fWrite fn body] with ⟨htr, hfs⟩
      refine ⟨?_, ?_, ?_, ?_⟩
      · rw [hload]
        rcases htr with htr | ⟨fmt, htr⟩ <;> rw [htr]
        · exact ⟨by simp [List.countP_cons, isHttpGet], by simp⟩
        · exact ⟨by simp [List.countP_cons, List.countP_append, isHttpGet], by simp⟩
      · intro status2 body2 heq hne
        injection heq with h1 h2
        exact absurd h1.symm hne
      · intro heq
        cases heq
      · intro body2 heq
        injection heq with h1 h2
        subst h2
        rw [hload]
        refine ⟨?_, hfs⟩
        rcases htr with htr | ⟨fmt, htr⟩ <;> rw [htr] <;> simp
    case neg =>
      have hload : loadDataFromGdrive env fs0 url fn
          = (.failed .downloadError,
              [.netGdown ("https://drive.google.com/uc?id=" ++ fid),
                .netHttp ("https://drive.google.com/uc?id=" ++ fid) true], fs0) := by
        unfold loadDataFromGdrive
        rw [hx, hg, henv]
        dsimp only
        rw [if_neg hs]
      refine ⟨?_, ?_, ?_, ?_⟩
      · rw [hload]
        exact ⟨by simp [List.countP_cons, isHttpGet], by simp⟩
      · intro status2 body2 heq hne
        rw [hload]
        refine ⟨rfl, ?_⟩
        intro e he
        simp only [List.mem_cons, List.mem_singleton] at he
        rcases he with rfl | rfl | h
        · rfl
        · rfl
        · cases h
      · intro heq
        cases heq
      · intro body2 heq
        injection heq with h1 h2
        exact absurd h1 hs

/-- Witness for C8 (amended) at the concrete 206 environment. -/
theorem fallback_transport_witness :
    (loadDataFromGdrive env206 [] "id=A" "f.csv").2.1.countP isHttpGet = 1 ∧
    Effect.netHttp ("https://drive.google.com/uc?id=" ++ "A") true
      ∈ (loadDataFromGdrive env206 [] "id=A" "f.csv").2.1 :=
  (fallback_transport env206 [] "id=A" "f.csv" "A" (by decide) rfl).1

/-- C9: on the primary transport path, when gdown reports a path (success)
but the destination file does not exist on disk, the Fetcher returns
Failed(DownloadError) and attempts no parse; a parse effect occurs only
when the destination file exists in the final filesystem. -/
theorem missing_file_guard (env : TransportEnv) (fs0 : FileSys)
    (url fn fid p : String) (w : Option (List Nat))
    (hx : extractFileId url = some fid)
    (hg : env.gdown = .ok (some p) w) :
    ((w = none ∧ existsFile fs0 fn = false) →
      (loadDataFromGdrive env fs0 url fn).1 = .failed .downloadError ∧
      ∀ e ∈ (loadDataFromGdrive env fs0 url fn).2.1, isParseEffect e = false) ∧
    (∀ e ∈ (loadDataFromGdrive env fs0 url fn).2.1, isParseEffect e = true →
      existsFile (loadDataFromGdrive env fs0 url fn).2.2 fn = true) := by
  constructor
  · rintro ⟨hw, hex⟩
    subst hw
    have hload : loadDataFromGdrive env fs0 url fn
        = postTransfer env (some p) fn fs0
            [.netGdown ("https://drive.google.com/uc?id=" ++ fid)] := by
      unfold loadDataFromGdrive
      rw [hx, hg]
    have hpost : loadDataFromGdrive env fs0 url fn
        = (.failed .downloadError,
            [.netGdown ("https://drive.google.com/uc?id=" ++ fid)], fs0) := by
      rw [hload]
      simp only [postTransfer]
      rw [if_neg (by rw [hex]; simp)]
    rw [hpost]
    refine ⟨rfl, ?_⟩
    intro e he
    simp only [List.mem_singleton] at he
    subst he
    rfl
  · cases w with
    | some content =>
      have hload : loadDataFromGdrive env fs0 url fn
          = postTransfer env (some p) fn (setFile fs0 fn content)
              [.netGdown ("https://drive.google.com/uc?id=" ++ fid)] := by
        unfold loadDataFromGdrive
        rw [hx, hg]
      intro e he hp
      rw [hload]
      rw [(postTransfer_trace env (some p) fn (setFile fs0 fn content) _).2]
      exact existsFile_setFile fs0 fn content
    | none =>
      have hload : loadDataFromGdrive env fs0 url fn
          = postTransfer env (some p) fn fs0
              [.netGdown ("https://drive.google.com/uc?id=" ++ fid)] := by
        unfold loadDataFromGdrive
        rw [hx, hg]
      by_cases hex : existsFile fs0 fn = true
      · intro e he hp
        rw [hload]
        rw [(postTransfer_trace env (some p) fn fs0 _).2]
        exact hex
      · have hpost : loadDataFromGdrive env fs0 url fn
            = (.failed .downloadError,
                [.netGdown ("https://drive.google.com/uc?id=" ++ fid)], fs0) := by
          rw [hload]
          simp only [postTransfer]
          rw [if_neg hex]
        intro e he hp
        rw [hpost] at he
        simp only [List.mem_singleton] at he
        subst he
        cases hp

/-- Environment for the C9 witness: gdown claims success with a path but
writes nothing, and the destination file is absent. -/
def env9 : TransportEnv := ⟨.ok (some "f.csv") none, .exn, fun _ => none⟩

/-- Witness for C9: missing destination file after reported success. -/
theorem missing_file_guard_witness :
    (loadDataFromGdrive env9 [] "id=A" "f.csv").1 = .failed .downloadError ∧
    ∀ e ∈ (loadDataFromGdrive env9 [] "id=A" "f.csv").2.1, isParseEffect e = false :=
  (missing_file_guard env9 [] "id=A" "f.csv" "A" "f.csv" none (by decide) rfl).1
    ⟨rfl, by decide⟩

end NycTaxi
